import Mathlib

/-!
Shallow embedding of `src/earning_calculators.py` (matrixport_calculator).

Each Python class becomes a structure holding the construction-time state;
each method becomes a Lean function on that structure.  Python floats are
modelled by the rationals `ℚ`.  Python float division raises
`ZeroDivisionError` on a zero divisor, so every method that divides returns
`Option ℚ`, with `none` standing for a raised arithmetic or assertion error;
the `assert` statements likewise map to `none` (the Python exception) and the
asserting constructor `BTCU.__init__` becomes the fallible maker `BTCU.mk?`.
-/

/-- State of a `BTCU` (dual-currency note) object after `__init__`. -/
structure BTCU where
  current_price : ℚ
  duration : ℚ
  hook_price : ℚ
  buy_price : ℚ
  earning_rate : ℚ
  deriving DecidableEq, Repr

/-- `BTCU.__init__`: stores the parameters, asserts `buy_price < hook_price`
(`none` models the `AssertionError`), and derives
`earning_rate = anual_earning_rate / 360 * duration`. -/
def BTCU.mk? (duration current_price hook_price buy_price
    anual_earning_rate : ℚ) : Option BTCU :=
  if buy_price < hook_price then
    some { current_price := current_price
           duration := duration
           hook_price := hook_price
           buy_price := buy_price
           earning_rate := anual_earning_rate / 360 * duration }
  else
    none

/-- `BTCU.get_max_annual_earning_rate`. -/
def BTCU.get_max_annual_earning_rate (b : BTCU) : ℚ :=
  b.earning_rate / b.duration * 360

/-- `BTCU.end_earning_rate`: below (or at) the hook price the 1 USD notional is
converted to the underlying at `buy_price`; above it, the fixed period rate is
earned.  `none` models the `ZeroDivisionError` of `1. / buy_price`. -/
def BTCU.end_earning_rate (b : BTCU) (end_price : ℚ) : Option ℚ :=
  let init_usd_amount : ℚ := 1
  if end_price ≤ b.hook_price then
    if b.buy_price = 0 then none
    else
      let btc_amount := init_usd_amount / b.buy_price
      let end_usd_amount := btc_amount * end_price
      some (end_usd_amount - init_usd_amount)
  else
    let end_usd_amount := init_usd_amount * (1 + b.earning_rate)
    some (end_usd_amount - init_usd_amount)

/-- State of a `BTCDown` (barrier note, "down") object after `__init__`. -/
structure BTCDown where
  duration : ℚ
  current_price : ℚ
  start_increase_price : ℚ
  end_increase_price : ℚ
  low_earning_rate : ℚ
  high_earning_rate : ℚ
  deriving DecidableEq, Repr

/-- `BTCDown.__init__`: stores the parameters and derives the two period
rates. -/
def BTCDown.make (duration current_price start_increase_price
    end_increase_price low_anual_earning_rate high_anual_earning_rate : ℚ) :
    BTCDown :=
  { duration := duration
    current_price := current_price
    start_increase_price := start_increase_price
    end_increase_price := end_increase_price
    low_earning_rate := low_anual_earning_rate / 360 * duration
    high_earning_rate := high_anual_earning_rate / 360 * duration }

/-- The interpolation formula of `BTCDown.end_earning_rate`'s `else` branch
(the middle region of the corridor), as written in the source. -/
def BTCDown.interp (b : BTCDown) (end_price : ℚ) : ℚ :=
  let lower_price_diff := end_price - b.end_increase_price
  let higher_price_diff := b.start_increase_price - end_price
  let total_price_diff := b.start_increase_price - b.end_increase_price
  let l_w := lower_price_diff / total_price_diff
  let h_w := higher_price_diff / total_price_diff
  b.high_earning_rate * h_w + b.low_earning_rate * l_w

/-- `BTCDown.end_earning_rate`: low rate at or above `start_increase_price`,
high rate at or below `end_increase_price`, linear interpolation in between.
`none` models the `ZeroDivisionError` when the corridor is degenerate and the
interpolating branch is reached. -/
def BTCDown.end_earning_rate (b : BTCDown) (end_price : ℚ) : Option ℚ :=
  if b.start_increase_price ≤ end_price then
    some b.low_earning_rate
  else if end_price ≤ b.end_increase_price then
    some b.high_earning_rate
  else if b.start_increase_price - b.end_increase_price = 0 then
    none
  else
    some (b.interp end_price)

/-- State of a `BTCUp` (barrier note, "up") object after `__init__`. -/
structure BTCUp where
  duration : ℚ
  current_price : ℚ
  start_increase_price : ℚ
  end_increase_price : ℚ
  low_earning_rate : ℚ
  high_earning_rate : ℚ
  deriving DecidableEq, Repr

/-- `BTCUp.__init__`: stores the parameters and derives the two period
rates. -/
def BTCUp.make (duration current_price start_increase_price
    end_increase_price low_anual_earning_rate high_anual_earning_rate : ℚ) :
    BTCUp :=
  { duration := duration
    current_price := current_price
    start_increase_price := start_increase_price
    end_increase_price := end_increase_price
    low_earning_rate := low_anual_earning_rate / 360 * duration
    high_earning_rate := high_anual_earning_rate / 360 * duration }

/-- The interpolation formula of `BTCUp.end_earning_rate`'s `else` branch. -/
def BTCUp.interp (b : BTCUp) (end_price : ℚ) : ℚ :=
  let lower_price_diff := b.end_increase_price - end_price
  let higher_price_diff := end_price - b.start_increase_price
  let total_price_diff := b.end_increase_price - b.start_increase_price
  let l_w := lower_price_diff / total_price_diff
  let h_w := higher_price_diff / total_price_diff
  b.high_earning_rate * h_w + b.low_earning_rate * l_w

/-- `BTCUp.end_earning_rate`: low rate at or below `start_increase_price`,
high rate at or above `end_increase_price`, linear interpolation in between.
`none` models the `ZeroDivisionError` for a degenerate corridor. -/
def BTCUp.end_earning_rate (b : BTCUp) (end_price : ℚ) : Option ℚ :=
  if end_price ≤ b.start_increase_price then
    some b.low_earning_rate
  else if b.end_increase_price ≤ end_price then
    some b.high_earning_rate
  else if b.end_increase_price - b.start_increase_price = 0 then
    none
  else
    some (b.interp end_price)

/-- State of a `BTCwithStop` (stop-loss spot position) object. -/
structure BTCwithStop where
  initial_price : ℚ
  stop_price : ℚ
  deriving DecidableEq, Repr

/-- `BTCwithStop.__init__`. -/
def BTCwithStop.make (current_price stop_price : ℚ) : BTCwithStop :=
  { initial_price := current_price, stop_price := stop_price }

/-- `BTCwithStop.end_earning_rate`: plain spot return above the stop price,
floored at the stop price otherwise.  `none` models the `ZeroDivisionError`
when `initial_price = 0`. -/
def BTCwithStop.end_earning_rate (b : BTCwithStop) (end_price : ℚ) :
    Option ℚ :=
  if b.stop_price < end_price then
    if b.initial_price = 0 then none
    else some ((end_price - b.initial_price) / b.initial_price)
  else
    if b.initial_price = 0 then none
    else some ((b.stop_price - b.initial_price) / b.initial_price)

/-- State of a `BTCGrid` (grid strategy blended with spot) object. -/
structure BTCGrid where
  initial_price : ℚ
  low_price : ℚ
  high_price : ℚ
  duration : ℚ
  grid_earning_rate : ℚ
  deriving DecidableEq, Repr

/-- `BTCGrid.__init__`: stores the parameters and derives
`grid_earning_rate = grid_anual_earning_rate / 360 * duration`. -/
def BTCGrid.make (current_price low_price high_price grid_anual_earning_rate
    duration : ℚ) : BTCGrid :=
  { initial_price := current_price
    low_price := low_price
    high_price := high_price
    duration := duration
    grid_earning_rate := grid_anual_earning_rate / 360 * duration }

/-- `BTCGrid.end_grid_earning_rate`: grid yield pro-rated by the holding
fraction. -/
def BTCGrid.end_grid_earning_rate (b : BTCGrid) (hold_rate : ℚ) : ℚ :=
  b.grid_earning_rate * hold_rate

/-- `BTCGrid.end_btc_earning_rate`: spot return with the terminal price
clamped to the `[low_price, high_price]` band.  Every branch divides by
`initial_price`, so `none` models the `ZeroDivisionError` when it is zero. -/
def BTCGrid.end_btc_earning_rate (b : BTCGrid) (end_price : ℚ) : Option ℚ :=
  if b.initial_price = 0 then none
  else if b.high_price < end_price then
    some ((b.high_price - b.initial_price) / b.initial_price)
  else if end_price < b.low_price then
    some ((b.low_price - b.initial_price) / b.initial_price)
  else
    some ((end_price - b.initial_price) / b.initial_price)

/-- `BTCGrid.end_earning_rate`: full grid yield plus half-weighted spot
exposure when no stop occurred; otherwise (after asserting
`stop_mode ∈ \x7b'high', 'low'\x7d` and `hold_rate < 1`, whose failure is
`none`) pro-rated grid yield plus half-weighted spot exposure evaluated at
the stop boundary. -/
def BTCGrid.end_earning_rate (b : BTCGrid) (end_price : ℚ)
    (non_stop : Bool := true) (hold_rate : ℚ := 1)
    (stop_mode : String := "low") : Option ℚ :=
  if non_stop then
    (b.end_btc_earning_rate end_price).map
      (fun btc_earning => b.end_grid_earning_rate 1 + btc_earning * (1/2))
  else if ¬(stop_mode = "high" ∨ stop_mode = "low") then none
  else if ¬(hold_rate < 1) then none
  else
    let grid_earning := b.end_grid_earning_rate hold_rate
    if stop_mode = "high" then
      (b.end_btc_earning_rate b.high_price).map
        (fun btc_earning => grid_earning + btc_earning * (1/2))
    else
      (b.end_btc_earning_rate b.low_price).map
        (fun btc_earning => grid_earning + btc_earning * (1/2))

/-! Helper lemmas shared by several claims. -/

theorem BTCGrid.end_btc_earning_rate_isSome (b : BTCGrid)
    (h : b.initial_price ≠ 0) (end_price : ℚ) :
    ∃ v, b.end_btc_earning_rate end_price = some v := by
  unfold BTCGrid.end_btc_earning_rate
  rw [if_neg h]
  split_ifs <;> exact ⟨_, rfl⟩


/-- C1: for a dual-currency note built from valid parameters
(`buy_price < hook_price`, `duration > 0`): at or below the hook price the
payout is `end_price / buy_price - 1`; strictly above it, it is the constant
period rate `anual_earning_rate / 360 * duration`, independent of
`end_price`; the boundary `end_price = hook_price` takes the conversion
branch. -/
theorem C1_dual_currency_payout
    (duration current_price hook_price buy_price anual_earning_rate : ℚ)
    (b : BTCU)
    (hmk : BTCU.mk? duration current_price hook_price buy_price
      anual_earning_rate = some b)
    (hdur : 0 < duration) (hbuy : 0 < buy_price) (end_price : ℚ) :
    (end_price ≤ hook_price →
      b.end_earning_rate end_price = some (end_price / buy_price - 1)) ∧
    (hook_price < end_price →
      b.end_earning_rate end_price
        = some (anual_earning_rate / 360 * duration)) := by
  unfold BTCU.mk? at hmk
  split at hmk
  · obtain rfl := Option.some.inj hmk
    constructor
    · intro hle
      unfold BTCU.end_earning_rate
      simp only [if_pos hle, if_neg hbuy.ne']
      rw [one_div, inv_mul_eq_div]
    · intro hgt
      unfold BTCU.end_earning_rate
      rw [if_neg (not_le.mpr hgt)]
      norm_num
  · exact absurd hmk (by simp)

/-- C1 witness: the concrete dual-currency note of the spec's scenario,
evaluated below and above the hook price. -/
theorem C1_dual_currency_payout_witness :
    ((BTCU.mk 21433.64 15 20000 15000 (1/10/360*15)).end_earning_rate 18000
      = some (18000 / 15000 - 1)) ∧
    ((BTCU.mk 21433.64 15 20000 15000 (1/10/360*15)).end_earning_rate 25000
      = some (1/10 / 360 * 15)) :=
  ⟨(C1_dual_currency_payout 15 21433.64 20000 15000 (1/10) _
      (by unfold BTCU.mk?
          rw [if_pos (show (15000:ℚ) < 20000 by norm_num)])
      (by norm_num) (by norm_num) 18000).1 (by norm_num),
   (C1_dual_currency_payout 15 21433.64 20000 15000 (1/10) _
      (by unfold BTCU.mk?
          rw [if_pos (show (15000:ℚ) < 20000 by norm_num)])
      (by norm_num) (by norm_num) 25000).2 (by norm_num)⟩

/-- C8: `BTCU` construction fails exactly when `buy_price ≥ hook_price`, and
succeeds whenever `buy_price < hook_price`. -/
theorem C8_dual_currency_construction
    (duration current_price hook_price buy_price anual_earning_rate : ℚ) :
    (BTCU.mk? duration current_price hook_price buy_price anual_earning_rate
        = none ↔ buy_price ≥ hook_price) ∧
    (buy_price < hook_price →
      ∃ b : BTCU,
        BTCU.mk? duration current_price hook_price buy_price
          anual_earning_rate = some b) := by
  constructor
  · unfold BTCU.mk?
    split_ifs with h
    · simp [not_le.mpr h]
    · simp [le_of_not_lt h]
  · intro h
    exact ⟨_, by unfold BTCU.mk?; rw [if_pos h]⟩

/-- C8 witness: construction fails at `buy_price = hook_price = 20000` and
succeeds at `buy_price = 15000 < hook_price = 20000`. -/
theorem C8_dual_currency_construction_witness :
    (BTCU.mk? 15 21433.64 20000 20000 (1/10) = none) ∧
    (∃ b : BTCU, BTCU.mk? 15 21433.64 20000 15000 (1/10) = some b) :=
  ⟨(C8_dual_currency_construction 15 21433.64 20000 20000 (1/10)).1.mpr
      le_rfl,
   (C8_dual_currency_construction 15 21433.64 20000 15000 (1/10)).2
      (by norm_num)⟩

/-- C7: the stop-loss spot position returns the plain spot return strictly
above the stop price and the floored return `(stop - current)/current` at or
below it (the floor is inclusive); when `stop_price ≤ current_price` every
returned value is at least the floor. -/
theorem C7_stop_loss_spot (current_price stop_price : ℚ)
    (hpos : 0 < current_price) (end_price : ℚ) :
    (stop_price < end_price →
      (BTCwithStop.make current_price stop_price).end_earning_rate end_price
        = some ((end_price - current_price) / current_price)) ∧
    (end_price ≤ stop_price →
      (BTCwithStop.make current_price stop_price).end_earning_rate end_price
        = some ((stop_price - current_price) / current_price)) ∧
    (stop_price ≤ current_price →
      ∀ v, (BTCwithStop.make current_price stop_price).end_earning_rate
          end_price = some v →
        (stop_price - current_price) / current_price ≤ v) := by
  unfold BTCwithStop.make BTCwithStop.end_earning_rate
  simp only [if_neg hpos.ne']
  refine ⟨fun h => by rw [if_pos h], fun h => by rw [if_neg (not_lt.mpr h)],
    fun _ v hv => ?_⟩
  split_ifs at hv with h
  · obtain rfl := Option.some.inj hv
    have hdiff : stop_price - current_price ≤ end_price - current_price := by
      linarith
    exact div_le_div_of_le_of_nonneg hdiff hpos.le
  · obtain rfl := Option.some.inj hv
    exact le_refl _

/-- C7 witness: a concrete stop-loss position evaluated above, at and below
the stop price. -/
theorem C7_stop_loss_spot_witness :
    ((BTCwithStop.make 21433.64 15000).end_earning_rate 18000
      = some ((18000 - 21433.64) / 21433.64)) ∧
    ((BTCwithStop.make 21433.64 15000).end_earning_rate 15000
      = some ((15000 - 21433.64) / 21433.64)) ∧
    ((15000 - 21433.64 : ℚ) / 21433.64
      ≤ (18000 - 21433.64) / 21433.64) :=
  ⟨(C7_stop_loss_spot 21433.64 15000 (by norm_num) 18000).1 (by norm_num),
   (C7_stop_loss_spot 21433.64 15000 (by norm_num) 15000).2.1 le_rfl,
   (C7_stop_loss_spot 21433.64 15000 (by norm_num) 18000).2.2 (by norm_num)
     _ ((C7_stop_loss_spot 21433.64 15000 (by norm_num) 18000).1
        (by norm_num))⟩

/-- C2: with `non_stop = true` the grid blend returns the full grid yield
plus half-weighted spot exposure at the terminal price; with
`non_stop = false` (under `hold_rate < 1` and a valid `stop_mode`) it returns
the pro-rated grid yield plus half-weighted spot exposure at the stop
boundary; and in the stopped branch the terminal price is never used. -/
theorem C2_grid_blend (b : BTCGrid) :
    (∀ end_price hold_rate stop_mode,
      b.end_earning_rate end_price true hold_rate stop_mode
        = (b.end_btc_earning_rate end_price).map
            (fun s => b.grid_earning_rate * 1 + (1/2) * s)) ∧
    (∀ end_price hold_rate stop_mode, hold_rate < 1 →
      (stop_mode = "high" ∨ stop_mode = "low") →
      b.end_earning_rate end_price false hold_rate stop_mode
        = (b.end_btc_earning_rate
            (if stop_mode = "high" then b.high_price else b.low_price)).map
            (fun s => b.grid_earning_rate * hold_rate + (1/2) * s)) ∧
    (∀ p1 p2 hold_rate stop_mode,
      b.end_earning_rate p1 false hold_rate stop_mode
        = b.end_earning_rate p2 false hold_rate stop_mode) := by
  refine ⟨fun end_price hold_rate stop_mode => ?_,
    fun end_price hold_rate stop_mode hh hm => ?_,
    fun p1 p2 hold_rate stop_mode => ?_⟩
  · unfold BTCGrid.end_earning_rate
    simp only [if_pos trivial]
    cases b.end_btc_earning_rate end_price <;>
      simp [BTCGrid.end_grid_earning_rate, mul_comm]
  · unfold BTCGrid.end_earning_rate
    simp only [Bool.false_eq_true, if_false, if_neg (not_not_intro hm),
      if_neg (not_not_intro hh)]
    by_cases hm' : stop_mode = "high"
    · simp only [if_pos hm']
      cases h : b.end_btc_earning_rate b.high_price <;>
        simp [h, BTCGrid.end_grid_earning_rate, mul_comm]
    · simp only [if_neg hm']
      cases h : b.end_btc_earning_rate b.low_price <;>
        simp [h, BTCGrid.end_grid_earning_rate, mul_comm]
  · unfold BTCGrid.end_earning_rate
    simp

/-- C2 witness: the spec's concrete grid blend, in the running branch at a
terminal price of 21000 and in the stopped branch. -/
theorem C2_grid_blend_witness :
    ((BTCGrid.make 21433.64 20000 22000 1.1102 15).end_earning_rate 21000
        true 1 "low"
      = ((BTCGrid.make 21433.64 20000 22000 1.1102 15).end_btc_earning_rate
          21000).map
          (fun s => (BTCGrid.make 21433.64 20000 22000 1.1102 15
            ).grid_earning_rate * 1 + (1/2) * s)) ∧
    ((BTCGrid.make 21433.64 20000 22000 1.1102 15).end_earning_rate 21000
        false (1/2) "low"
      = ((BTCGrid.make 21433.64 20000 22000 1.1102 15).end_btc_earning_rate
          (if ("low":String) = "high"
            then (BTCGrid.make 21433.64 20000 22000 1.1102 15).high_price
            else (BTCGrid.make 21433.64 20000 22000 1.1102 15).low_price)).map
          (fun s => (BTCGrid.make 21433.64 20000 22000 1.1102 15
            ).grid_earning_rate * (1/2) + (1/2) * s)) ∧
    ((BTCGrid.make 21433.64 20000 22000 1.1102 15).end_earning_rate 20500
        false (1/2) "low"
      = (BTCGrid.make 21433.64 20000 22000 1.1102 15).end_earning_rate 21500
        false (1/2) "low") :=
  ⟨(C2_grid_blend (BTCGrid.make 21433.64 20000 22000 1.1102 15)).1
      21000 1 "low",
   (C2_grid_blend (BTCGrid.make 21433.64 20000 22000 1.1102 15)).2.1
      21000 (1/2) "low" (by norm_num) (Or.inr rfl),
   (C2_grid_blend (BTCGrid.make 21433.64 20000 22000 1.1102 15)).2.2
      20500 21500 (1/2) "low"⟩

/-- C9: with `initial_price > 0`, the stopped call fails exactly when
`hold_rate ≥ 1` or `stop_mode` is neither `"high"` nor `"low"`, and the
`non_stop` call never fails. -/
theorem C9_grid_assertion (b : BTCGrid) (hpos : 0 < b.initial_price) :
    (∀ end_price hold_rate stop_mode,
      (b.end_earning_rate end_price false hold_rate stop_mode = none
        ↔ (1 ≤ hold_rate ∨ (stop_mode ≠ "high" ∧ stop_mode ≠ "low")))) ∧
    (∀ end_price hold_rate stop_mode,
      b.end_earning_rate end_price true hold_rate stop_mode ≠ none) := by
  constructor
  · intro end_price hold_rate stop_mode
    unfold BTCGrid.end_earning_rate
    simp only [Bool.false_eq_true, if_false]
    by_cases hm : stop_mode = "high" ∨ stop_mode = "low"
    · rw [if_neg (not_not_intro hm)]
      by_cases hh : hold_rate < 1
      · rw [if_neg (not_not_intro hh)]
        rcases hm with hm | hm
        · rw [if_pos hm]
          obtain ⟨v, hv⟩ := b.end_btc_earning_rate_isSome hpos.ne' b.high_price
          simp [hv, not_le.mpr hh, hm]
        · by_cases hm' : stop_mode = "high"
          · rw [if_pos hm']
            obtain ⟨v, hv⟩ :=
              b.end_btc_earning_rate_isSome hpos.ne' b.high_price
            simp [hv, not_le.mpr hh, hm']
          · rw [if_neg hm']
            obtain ⟨v, hv⟩ :=
              b.end_btc_earning_rate_isSome hpos.ne' b.low_price
            simp [hv, not_le.mpr hh, hm]
      · rw [if_pos hh]
        simp [not_lt.mp hh]
    · rw [if_pos hm]
      push_neg at hm
      simp [hm]
  · intro end_price hold_rate stop_mode
    unfold BTCGrid.end_earning_rate
    simp only [if_pos trivial]
    obtain ⟨v, hv⟩ := b.end_btc_earning_rate_isSome hpos.ne' end_price
    simp [hv]

/-- C9 witness: the spec's concrete grid blend with
`non_stop = false, hold_rate = 1, stop_mode = "low"` fails, while the
`non_stop = true` call with the same arguments succeeds. -/
theorem C9_grid_assertion_witness :
    ((BTCGrid.make 21433.64 20000 22000 1.1102 15).end_earning_rate 21000
        false 1 "low" = none) ∧
    ((BTCGrid.make 21433.64 20000 22000 1.1102 15).end_earning_rate 21000
        true 1 "low" ≠ none) :=
  ⟨((C9_grid_assertion (BTCGrid.make 21433.64 20000 22000 1.1102 15)
      (by norm_num [BTCGrid.make])).1 21000 1 "low").mpr (Or.inl le_rfl),
   (C9_grid_assertion (BTCGrid.make 21433.64 20000 22000 1.1102 15)
      (by norm_num [BTCGrid.make])).2 21000 1 "low"⟩

/-! Helper lemmas about the barrier notes.  The guarded branch structure of
`end_earning_rate` makes the interpolation branch reachable only when the
corridor is properly ordered, so the division-by-zero case is dead code and
the function always returns a value. -/

theorem BTCDown.end_earning_rate_eq_ite_down (b : BTCDown) (p : ℚ) :
    b.end_earning_rate p
      = if b.start_increase_price ≤ p then some b.low_earning_rate
        else if p ≤ b.end_increase_price then some b.high_earning_rate
        else some (b.interp p) := by
  unfold BTCDown.end_earning_rate
  split_ifs with h1 h2 h3
  · rfl
  · rfl
  · exfalso
    rw [sub_eq_zero] at h3
    push_neg at h1 h2
    linarith
  · rfl

theorem BTCUp.end_earning_rate_eq_ite_up (b : BTCUp) (p : ℚ) :
    b.end_earning_rate p
      = if p ≤ b.start_increase_price then some b.low_earning_rate
        else if b.end_increase_price ≤ p then some b.high_earning_rate
        else some (b.interp p) := by
  unfold BTCUp.end_earning_rate
  split_ifs with h1 h2 h3
  · rfl
  · rfl
  · exfalso
    rw [sub_eq_zero] at h3
    push_neg at h1 h2
    linarith
  · rfl

theorem BTCDown.interp_eq_down (b : BTCDown)
    (h : b.start_increase_price - b.end_increase_price ≠ 0) (p : ℚ) :
    b.interp p
      = (b.high_earning_rate * (b.start_increase_price - p)
          + b.low_earning_rate * (p - b.end_increase_price))
        / (b.start_increase_price - b.end_increase_price) := by
  unfold BTCDown.interp
  field_simp

theorem BTCUp.interp_eq_up (b : BTCUp)
    (h : b.end_increase_price - b.start_increase_price ≠ 0) (p : ℚ) :
    b.interp p
      = (b.high_earning_rate * (p - b.start_increase_price)
          + b.low_earning_rate * (b.end_increase_price - p))
        / (b.end_increase_price - b.start_increase_price) := by
  unfold BTCUp.interp
  field_simp

theorem BTCDown.interp_mem_down (b : BTCDown) (p : ℚ)
    (h1 : b.end_increase_price < p) (h2 : p < b.start_increase_price) :
    min b.low_earning_rate b.high_earning_rate ≤ b.interp p
      ∧ b.interp p ≤ max b.low_earning_rate b.high_earning_rate := by
  have hse : b.end_increase_price < b.start_increase_price := h1.trans h2
  have hpos : (0:ℚ) < b.start_increase_price - b.end_increase_price := by
    linarith
  rw [b.interp_eq_down hpos.ne' p]
  constructor
  · rw [le_div_iff hpos]
    have ha := mul_le_mul_of_nonneg_right
      (min_le_right b.low_earning_rate b.high_earning_rate)
      (by linarith : (0:ℚ) ≤ b.start_increase_price - p)
    have hb := mul_le_mul_of_nonneg_right
      (min_le_left b.low_earning_rate b.high_earning_rate)
      (by linarith : (0:ℚ) ≤ p - b.end_increase_price)
    linarith
  · rw [div_le_iff hpos]
    have ha := mul_le_mul_of_nonneg_right
      (le_max_right b.low_earning_rate b.high_earning_rate)
      (by linarith : (0:ℚ) ≤ b.start_increase_price - p)
    have hb := mul_le_mul_of_nonneg_right
      (le_max_left b.low_earning_rate b.high_earning_rate)
      (by linarith : (0:ℚ) ≤ p - b.end_increase_price)
    linarith

theorem BTCUp.interp_mem_up (b : BTCUp) (p : ℚ)
    (h1 : b.start_increase_price < p) (h2 : p < b.end_increase_price) :
    min b.low_earning_rate b.high_earning_rate ≤ b.interp p
      ∧ b.interp p ≤ max b.low_earning_rate b.high_earning_rate := by
  have hse : b.start_increase_price < b.end_increase_price := h1.trans h2
  have hpos : (0:ℚ) < b.end_increase_price - b.start_increase_price := by
    linarith
  rw [b.interp_eq_up hpos.ne' p]
  constructor
  · rw [le_div_iff hpos]
    have ha := mul_le_mul_of_nonneg_right
      (min_le_right b.low_earning_rate b.high_earning_rate)
      (by linarith : (0:ℚ) ≤ p - b.start_increase_price)
    have hb := mul_le_mul_of_nonneg_right
      (min_le_left b.low_earning_rate b.high_earning_rate)
      (by linarith : (0:ℚ) ≤ b.end_increase_price - p)
    linarith
  · rw [div_le_iff hpos]
    have ha := mul_le_mul_of_nonneg_right
      (le_max_right b.low_earning_rate b.high_earning_rate)
      (by linarith : (0:ℚ) ≤ p - b.start_increase_price)
    have hb := mul_le_mul_of_nonneg_right
      (le_max_left b.low_earning_rate b.high_earning_rate)
      (by linarith : (0:ℚ) ≤ b.end_increase_price - p)
    linarith

theorem BTCUp.interp_mono (b : BTCUp)
    (hse : b.start_increase_price < b.end_increase_price)
    (hr : b.low_earning_rate ≤ b.high_earning_rate)
    (p q : ℚ) (hpq : p ≤ q) : b.interp p ≤ b.interp q := by
  have hpos : (0:ℚ) < b.end_increase_price - b.start_increase_price := by
    linarith
  rw [b.interp_eq_up hpos.ne' p, b.interp_eq_up hpos.ne' q]
  rw [div_le_div_iff hpos hpos]
  nlinarith [mul_nonneg (sub_nonneg.mpr hr) (sub_nonneg.mpr hpq)]

theorem BTCDown.interp_anti (b : BTCDown)
    (hse : b.end_increase_price < b.start_increase_price)
    (hr : b.low_earning_rate ≤ b.high_earning_rate)
    (p q : ℚ) (hpq : p ≤ q) : b.interp q ≤ b.interp p := by
  have hpos : (0:ℚ) < b.start_increase_price - b.end_increase_price := by
    linarith
  rw [b.interp_eq_down hpos.ne' p, b.interp_eq_down hpos.ne' q]
  rw [div_le_div_iff hpos hpos]
  nlinarith [mul_nonneg (sub_nonneg.mpr hr) (sub_nonneg.mpr hpq)]

/-- C3 counterexample: with a degenerate corridor (equal bounds) the guarded
branch structure makes the interpolation branch unreachable, so no terminal
price triggers the division by zero, for the "down" and the "up" note
alike. -/
theorem C3_counterexample :
    ¬((∃ p : ℚ, (BTCDown.make 15 21433.64 20000 20000 (3/100)
          (164/1000)).end_earning_rate p = none) ∨
      (∃ p : ℚ, (BTCUp.make 15 21433.64 22000 22000 (3/100)
          (311/1000)).end_earning_rate p = none)) := by
  rintro (⟨p, hp⟩ | ⟨p, hp⟩)
  · rw [BTCDown.end_earning_rate_eq_ite_down] at hp
    split_ifs at hp
  · rw [BTCUp.end_earning_rate_eq_ite_up] at hp
    split_ifs at hp

/-- C3 (amended): for a degenerate corridor
(`start_increase_price = end_increase_price`) the interpolation branch of
`end_earning_rate` is unreachable, so no division by zero occurs: every
terminal price yields the low or the high period rate. -/
theorem C3_degenerate_corridor_total :
    (∀ (b : BTCDown), b.start_increase_price = b.end_increase_price →
      ∀ p : ℚ, b.end_earning_rate p = some b.low_earning_rate
        ∨ b.end_earning_rate p = some b.high_earning_rate) ∧
    (∀ (b : BTCUp), b.start_increase_price = b.end_increase_price →
      ∀ p : ℚ, b.end_earning_rate p = some b.low_earning_rate
        ∨ b.end_earning_rate p = some b.high_earning_rate) := by
  constructor
  · intro b hdeg p
    rw [BTCDown.end_earning_rate_eq_ite_down]
    by_cases h1 : b.start_increase_price ≤ p
    · left
      rw [if_pos h1]
    · right
      rw [if_neg h1, if_pos (by rw [← hdeg]; exact (not_le.mp h1).le)]
  · intro b hdeg p
    rw [BTCUp.end_earning_rate_eq_ite_up]
    by_cases h1 : p ≤ b.start_increase_price
    · left
      rw [if_pos h1]
    · right
      rw [if_neg h1, if_pos (by rw [← hdeg]; exact (not_le.mp h1).le)]

/-- C3 witness: concrete degenerate notes evaluated at concrete terminal
prices. -/
theorem C3_degenerate_corridor_total_witness :
    ((BTCDown.make 15 21433.64 20000 20000 (3/100)
          (164/1000)).end_earning_rate 19000
        = some (BTCDown.make 15 21433.64 20000 20000 (3/100)
          (164/1000)).low_earning_rate
      ∨ (BTCDown.make 15 21433.64 20000 20000 (3/100)
          (164/1000)).end_earning_rate 19000
        = some (BTCDown.make 15 21433.64 20000 20000 (3/100)
          (164/1000)).high_earning_rate) ∧
    ((BTCUp.make 15 21433.64 22000 22000 (3/100)
          (311/1000)).end_earning_rate 23000
        = some (BTCUp.make 15 21433.64 22000 22000 (3/100)
          (311/1000)).low_earning_rate
      ∨ (BTCUp.make 15 21433.64 22000 22000 (3/100)
          (311/1000)).end_earning_rate 23000
        = some (BTCUp.make 15 21433.64 22000 22000 (3/100)
          (311/1000)).high_earning_rate) :=
  ⟨C3_degenerate_corridor_total.1
      (BTCDown.make 15 21433.64 20000 20000 (3/100) (164/1000)) rfl 19000,
   C3_degenerate_corridor_total.2
      (BTCUp.make 15 21433.64 22000 22000 (3/100) (311/1000)) rfl 23000⟩

/-- C4: for a properly ordered corridor the interpolation formula evaluated
at `start_increase_price` equals the low period rate and evaluated at
`end_increase_price` equals the high period rate, i.e. it agrees with the
saturated branches at both boundaries (continuity). -/
theorem C4_barrier_continuity (duration current s e lo hi : ℚ) :
    (e < s →
      (BTCDown.make duration current s e lo hi).interp s
          = lo / 360 * duration
        ∧ (BTCDown.make duration current s e lo hi).interp e
          = hi / 360 * duration
        ∧ (BTCDown.make duration current s e lo hi).end_earning_rate s
          = some (lo / 360 * duration)
        ∧ (BTCDown.make duration current s e lo hi).end_earning_rate e
          = some (hi / 360 * duration)) ∧
    (s < e →
      (BTCUp.make duration current s e lo hi).interp s
          = lo / 360 * duration
        ∧ (BTCUp.make duration current s e lo hi).interp e
          = hi / 360 * duration
        ∧ (BTCUp.make duration current s e lo hi).end_earning_rate s
          = some (lo / 360 * duration)
        ∧ (BTCUp.make duration current s e lo hi).end_earning_rate e
          = some (hi / 360 * duration)) := by
  constructor
  · intro h
    have hne : s - e ≠ 0 := sub_ne_zero.mpr h.ne'
    refine ⟨?_, ?_, ?_, ?_⟩
    · rw [(BTCDown.make duration current s e lo hi).interp_eq_down hne s]
      show (hi / 360 * duration * (s - s) + lo / 360 * duration * (s - e))
          / (s - e) = lo / 360 * duration
      field_simp
      ring
    · rw [(BTCDown.make duration current s e lo hi).interp_eq_down hne e]
      show (hi / 360 * duration * (s - e) + lo / 360 * duration * (e - e))
          / (s - e) = hi / 360 * duration
      field_simp
      ring
    · rw [BTCDown.end_earning_rate_eq_ite_down]
      simp only [BTCDown.make]
      rw [if_pos (le_refl s)]
    · rw [BTCDown.end_earning_rate_eq_ite_down]
      simp only [BTCDown.make]
      rw [if_neg (not_le.mpr h), if_pos (le_refl e)]
  · intro h
    have hne : e - s ≠ 0 := sub_ne_zero.mpr h.ne'
    refine ⟨?_, ?_, ?_, ?_⟩
    · rw [(BTCUp.make duration current s e lo hi).interp_eq_up hne s]
      show (hi / 360 * duration * (s - s) + lo / 360 * duration * (e - s))
          / (e - s) = lo / 360 * duration
      field_simp
      ring
    · rw [(BTCUp.make duration current s e lo hi).interp_eq_up hne e]
      show (hi / 360 * duration * (e - s) + lo / 360 * duration * (e - e))
          / (e - s) = hi / 360 * duration
      field_simp
      ring
    · rw [BTCUp.end_earning_rate_eq_ite_up]
      simp only [BTCUp.make]
      rw [if_pos (le_refl s)]
    · rw [BTCUp.end_earning_rate_eq_ite_up]
      simp only [BTCUp.make]
      rw [if_neg (not_le.mpr h), if_pos (le_refl e)]

/-- C4 witness: the driver's concrete "down" note (corridor 20000 → 15000)
and "up" note (corridor 22000 → 32000), at both corridor boundaries. -/
theorem C4_barrier_continuity_witness :
    ((BTCDown.make 15 21433.64 20000 15000 (3/100) (164/1000)).interp 20000
        = 3 / 100 / 360 * 15
      ∧ (BTCDown.make 15 21433.64 20000 15000 (3/100)
          (164/1000)).interp 15000 = 164 / 1000 / 360 * 15
      ∧ (BTCDown.make 15 21433.64 20000 15000 (3/100)
          (164/1000)).end_earning_rate 20000 = some (3 / 100 / 360 * 15)
      ∧ (BTCDown.make 15 21433.64 20000 15000 (3/100)
          (164/1000)).end_earning_rate 15000
          = some (164 / 1000 / 360 * 15)) ∧
    ((BTCUp.make 15 21433.64 22000 32000 (3/100) (311/1000)).interp 22000
        = 3 / 100 / 360 * 15
      ∧ (BTCUp.make 15 21433.64 22000 32000 (3/100)
          (311/1000)).interp 32000 = 311 / 1000 / 360 * 15
      ∧ (BTCUp.make 15 21433.64 22000 32000 (3/100)
          (311/1000)).end_earning_rate 22000 = some (3 / 100 / 360 * 15)
      ∧ (BTCUp.make 15 21433.64 22000 32000 (3/100)
          (311/1000)).end_earning_rate 32000
          = some (311 / 1000 / 360 * 15)) :=
  ⟨(C4_barrier_continuity 15 21433.64 20000 15000 (3/100) (164/1000)).1
      (by norm_num),
   (C4_barrier_continuity 15 21433.64 22000 32000 (3/100) (311/1000)).2
      (by norm_num)⟩

/-- C5: a "down" note with corridor `a > b` and rates `(lo, hi)` computes the
same payout as an "up" note with the swapped corridor `(b, a)` and swapped
rates `(hi, lo)`, at every terminal price. -/
theorem C5_down_up_equiv (duration current a b lo hi p : ℚ) (hab : b < a) :
    (BTCDown.make duration current a b lo hi).end_earning_rate p
      = (BTCUp.make duration current b a hi lo).end_earning_rate p := by
  rw [BTCDown.end_earning_rate_eq_ite_down, BTCUp.end_earning_rate_eq_ite_up]
  show (if a ≤ p then some (lo / 360 * duration)
      else if p ≤ b then some (hi / 360 * duration)
      else some ((BTCDown.make duration current a b lo hi).interp p))
    = (if p ≤ b then some (hi / 360 * duration)
      else if a ≤ p then some (lo / 360 * duration)
      else some ((BTCUp.make duration current b a hi lo).interp p))
  split_ifs with h1 h2 h3
  · exfalso
    linarith
  · rfl
  · rfl
  · congr 1
    unfold BTCDown.interp BTCUp.interp
    show hi / 360 * duration * ((a - p) / (a - b))
        + lo / 360 * duration * ((p - b) / (a - b))
      = lo / 360 * duration * ((p - b) / (a - b))
        + hi / 360 * duration * ((a - p) / (a - b))
    ring

/-- C5 witness: the driver's "down" note against its mirrored "up" note at a
terminal price inside the corridor. -/
theorem C5_down_up_equiv_witness :
    (BTCDown.make 15 21433.64 20000 15000 (3/100) (164/1000)).end_earning_rate
        17000
      = (BTCUp.make 15 21433.64 15000 20000 (164/1000)
          (3/100)).end_earning_rate 17000 :=
  C5_down_up_equiv 15 21433.64 20000 15000 (3/100) (164/1000) 17000
    (by norm_num)

theorem BTCUp.end_earning_rate_mono (b : BTCUp)
    (hse : b.start_increase_price < b.end_increase_price)
    (hr : b.low_earning_rate ≤ b.high_earning_rate)
    (p1 p2 v1 v2 : ℚ) (hp : p1 ≤ p2)
    (h1 : b.end_earning_rate p1 = some v1)
    (h2 : b.end_earning_rate p2 = some v2) : v1 ≤ v2 := by
  rw [BTCUp.end_earning_rate_eq_ite_up] at h1 h2
  have hlo : ∀ q : ℚ, b.start_increase_price < q → q < b.end_increase_price →
      b.low_earning_rate ≤ b.interp q := by
    intro q hq1 hq2
    have := (b.interp_mem_up q hq1 hq2).1
    rwa [min_eq_left hr] at this
  have hhi : ∀ q : ℚ, b.start_increase_price < q → q < b.end_increase_price →
      b.interp q ≤ b.high_earning_rate := by
    intro q hq1 hq2
    have := (b.interp_mem_up q hq1 hq2).2
    rwa [max_eq_right hr] at this
  by_cases a1 : p1 ≤ b.start_increase_price
  · rw [if_pos a1] at h1
    obtain rfl := Option.some.inj h1
    by_cases a2 : p2 ≤ b.start_increase_price
    · rw [if_pos a2] at h2
      obtain rfl := Option.some.inj h2
      exact le_refl _
    · rw [if_neg a2] at h2
      by_cases a3 : b.end_increase_price ≤ p2
      · rw [if_pos a3] at h2
        obtain rfl := Option.some.inj h2
        exact hr
      · rw [if_neg a3] at h2
        obtain rfl := Option.some.inj h2
        exact hlo p2 (not_le.mp a2) (not_le.mp a3)
  · rw [if_neg a1] at h1
    by_cases a2 : b.end_increase_price ≤ p1
    · rw [if_pos a2] at h1
      obtain rfl := Option.some.inj h1
      rw [if_neg (by linarith : ¬p2 ≤ b.start_increase_price),
        if_pos (by linarith : b.end_increase_price ≤ p2)] at h2
      obtain rfl := Option.some.inj h2
      exact le_refl _
    · rw [if_neg a2] at h1
      obtain rfl := Option.some.inj h1
      rw [if_neg (by linarith : ¬p2 ≤ b.start_increase_price)] at h2
      by_cases a3 : b.end_increase_price ≤ p2
      · rw [if_pos a3] at h2
        obtain rfl := Option.some.inj h2
        exact hhi p1 (not_le.mp a1) (not_le.mp a2)
      · rw [if_neg a3] at h2
        obtain rfl := Option.some.inj h2
        exact b.interp_mono hse hr p1 p2 hp

theorem BTCDown.end_earning_rate_anti (b : BTCDown)
    (hse : b.end_increase_price < b.start_increase_price)
    (hr : b.low_earning_rate ≤ b.high_earning_rate)
    (p1 p2 v1 v2 : ℚ) (hp : p1 ≤ p2)
    (h1 : b.end_earning_rate p1 = some v1)
    (h2 : b.end_earning_rate p2 = some v2) : v2 ≤ v1 := by
  rw [BTCDown.end_earning_rate_eq_ite_down] at h1 h2
  have hlo : ∀ q : ℚ, b.end_increase_price < q → q < b.start_increase_price →
      b.low_earning_rate ≤ b.interp q := by
    intro q hq1 hq2
    have := (b.interp_mem_down q hq1 hq2).1
    rwa [min_eq_left hr] at this
  have hhi : ∀ q : ℚ, b.end_increase_price < q → q < b.start_increase_price →
      b.interp q ≤ b.high_earning_rate := by
    intro q hq1 hq2
    have := (b.interp_mem_down q hq1 hq2).2
    rwa [max_eq_right hr] at this
  by_cases a1 : b.start_increase_price ≤ p1
  · rw [if_pos a1] at h1
    obtain rfl := Option.some.inj h1
    rw [if_pos (by linarith : b.start_increase_price ≤ p2)] at h2
    obtain rfl := Option.some.inj h2
    exact le_refl _
  · rw [if_neg a1] at h1
    by_cases a2 : p1 ≤ b.end_increase_price
    · rw [if_pos a2] at h1
      obtain rfl := Option.some.inj h1
      by_cases a3 : b.start_increase_price ≤ p2
      · rw [if_pos a3] at h2
        obtain rfl := Option.some.inj h2
        exact hr
      · rw [if_neg a3] at h2
        by_cases a4 : p2 ≤ b.end_increase_price
        · rw [if_pos a4] at h2
          obtain rfl := Option.some.inj h2
          exact le_refl _
        · rw [if_neg a4] at h2
          obtain rfl := Option.some.inj h2
          exact hhi p2 (not_le.mp a4) (not_le.mp a3)
    · rw [if_neg a2] at h1
      obtain rfl := Option.some.inj h1
      by_cases a3 : b.start_increase_price ≤ p2
      · rw [if_pos a3] at h2
        obtain rfl := Option.some.inj h2
        exact hlo p1 (not_le.mp a2) (not_le.mp a1)
      · rw [if_neg a3] at h2
        by_cases a4 : p2 ≤ b.end_increase_price
        · exfalso
          have := not_le.mp a2
          linarith
        · rw [if_neg a4] at h2
          obtain rfl := Option.some.inj h2
          exact b.interp_anti hse hr p1 p2 hp

/-- C6: with a properly ordered corridor, positive duration and
`low ≤ high` annual rates, the "up" note's payout is nondecreasing in the
terminal price and the "down" note's payout is nonincreasing. -/
theorem C6_barrier_monotonic :
    (∀ duration current s e lo hi p1 p2 v1 v2 : ℚ, 0 < duration → s < e →
      lo ≤ hi → p1 ≤ p2 →
      (BTCUp.make duration current s e lo hi).end_earning_rate p1 = some v1 →
      (BTCUp.make duration current s e lo hi).end_earning_rate p2 = some v2 →
      v1 ≤ v2) ∧
    (∀ duration current s e lo hi p1 p2 v1 v2 : ℚ, 0 < duration → e < s →
      lo ≤ hi → p1 ≤ p2 →
      (BTCDown.make duration current s e lo hi).end_earning_rate p1
        = some v1 →
      (BTCDown.make duration current s e lo hi).end_earning_rate p2
        = some v2 →
      v2 ≤ v1) := by
  have hrate : ∀ duration lo hi : ℚ, 0 < duration → lo ≤ hi →
      lo / 360 * duration ≤ hi / 360 * duration := by
    intro duration lo hi hd hlh
    apply mul_le_mul_of_nonneg_right _ hd.le
    apply div_le_div_of_le_of_nonneg hlh
    norm_num
  constructor
  · intro duration current s e lo hi p1 p2 v1 v2 hd hse hlh hp h1 h2
    exact (BTCUp.make duration current s e lo hi).end_earning_rate_mono hse
      (hrate duration lo hi hd hlh) p1 p2 v1 v2 hp h1 h2
  · intro duration current s e lo hi p1 p2 v1 v2 hd hse hlh hp h1 h2
    exact (BTCDown.make duration current s e lo hi).end_earning_rate_anti hse
      (hrate duration lo hi hd hlh) p1 p2 v1 v2 hp h1 h2

/-- C6 witness: the driver's concrete notes, comparing a terminal price on
the low plateau with one on the high plateau. -/
theorem C6_barrier_monotonic_witness :
    ((3:ℚ) / 100 / 360 * 15 ≤ 311 / 1000 / 360 * 15) ∧
    ((3:ℚ) / 100 / 360 * 15 ≤ 164 / 1000 / 360 * 15) :=
  ⟨C6_barrier_monotonic.1 15 21433.64 22000 32000 (3/100) (311/1000)
      20000 35000 (3/100/360*15) (311/1000/360*15)
      (by norm_num) (by norm_num) (by norm_num) (by norm_num)
      (by rw [BTCUp.end_earning_rate_eq_ite_up]
          simp only [BTCUp.make]
          rw [if_pos (by norm_num : (20000:ℚ) ≤ 22000)])
      (by rw [BTCUp.end_earning_rate_eq_ite_up]
          simp only [BTCUp.make]
          rw [if_neg (by norm_num : ¬(35000:ℚ) ≤ 22000),
            if_pos (by norm_num : (32000:ℚ) ≤ 35000)]),
   C6_barrier_monotonic.2 15 21433.64 20000 15000 (3/100) (164/1000)
      14000 21000 (164/1000/360*15) (3/100/360*15)
      (by norm_num) (by norm_num) (by norm_num) (by norm_num)
      (by rw [BTCDown.end_earning_rate_eq_ite_down]
          simp only [BTCDown.make]
          rw [if_neg (by norm_num : ¬(20000:ℚ) ≤ 14000),
            if_pos (by norm_num : (14000:ℚ) ≤ 15000)])
      (by rw [BTCDown.end_earning_rate_eq_ite_down]
          simp only [BTCDown.make]
          rw [if_pos (by norm_num : (20000:ℚ) ≤ 21000)])⟩

/-- C10: without any ordering precondition on the corridor bounds, every
value returned by a barrier note's `end_earning_rate` lies between the two
period rates. -/
theorem C10_barrier_bounds :
    (∀ duration current s e lo hi p v : ℚ,
      (BTCDown.make duration current s e lo hi).end_earning_rate p
        = some v →
      min (lo / 360 * duration) (hi / 360 * duration) ≤ v
        ∧ v ≤ max (lo / 360 * duration) (hi / 360 * duration)) ∧
    (∀ duration current s e lo hi p v : ℚ,
      (BTCUp.make duration current s e lo hi).end_earning_rate p = some v →
      min (lo / 360 * duration) (hi / 360 * duration) ≤ v
        ∧ v ≤ max (lo / 360 * duration) (hi / 360 * duration)) := by
  constructor
  · intro duration current s e lo hi p v h
    rw [BTCDown.end_earning_rate_eq_ite_down] at h
    split_ifs at h with h1 h2
    · obtain rfl := Option.some.inj h
      exact ⟨min_le_left _ _, le_max_left _ _⟩
    · obtain rfl := Option.some.inj h
      exact ⟨min_le_right _ _, le_max_right _ _⟩
    · obtain rfl := Option.some.inj h
      exact (BTCDown.make duration current s e lo hi).interp_mem_down p
        (not_le.mp h2) (not_le.mp h1)
  · intro duration current s e lo hi p v h
    rw [BTCUp.end_earning_rate_eq_ite_up] at h
    split_ifs at h with h1 h2
    · obtain rfl := Option.some.inj h
      exact ⟨min_le_left _ _, le_max_left _ _⟩
    · obtain rfl := Option.some.inj h
      exact ⟨min_le_right _ _, le_max_right _ _⟩
    · obtain rfl := Option.some.inj h
      exact (BTCUp.make duration current s e lo hi).interp_mem_up p
        (not_le.mp h1) (not_le.mp h2)

/-- C10 witness: the driver's "down" note inside the corridor and its "up"
note on the low plateau. -/
theorem C10_barrier_bounds_witness :
    (min ((3:ℚ) / 100 / 360 * 15) (164 / 1000 / 360 * 15) ≤ 23 / 5000
      ∧ (23:ℚ) / 5000 ≤ max ((3:ℚ) / 100 / 360 * 15) (164 / 1000 / 360 * 15)) ∧
    (min ((3:ℚ) / 100 / 360 * 15) (311 / 1000 / 360 * 15) ≤ 3 / 100 / 360 * 15
      ∧ (3:ℚ) / 100 / 360 * 15
        ≤ max ((3:ℚ) / 100 / 360 * 15) (311 / 1000 / 360 * 15)) :=
  ⟨C10_barrier_bounds.1 15 21433.64 20000 15000 (3/100) (164/1000) 17000
      (23/5000)
      (by rw [BTCDown.end_earning_rate_eq_ite_down]
          simp only [BTCDown.make]
          rw [if_neg (by norm_num : ¬(20000:ℚ) ≤ 17000),
            if_neg (by norm_num : ¬(17000:ℚ) ≤ 15000)]
          unfold BTCDown.interp
          norm_num),
   C10_barrier_bounds.2 15 21433.64 22000 32000 (3/100) (311/1000) 20000
      (3/100/360*15)
      (by rw [BTCUp.end_earning_rate_eq_ite_up]
          simp only [BTCUp.make]
          rw [if_pos (by norm_num : (20000:ℚ) ≤ 22000)])⟩
